import Mathlib

set_option maxRecDepth 10000

/-!
Verification of the duck-backend order/payment core.

The development embeds, directly from the JavaScript source, the BileePay
request signer (`generateSignature`), the cart-total computation
(`calculateOrderTotal`), and the order-lifecycle HTTP handlers
(`submitEmail`, `submitEmailSecure`, `submitCode`, `orderStatusUpdate`,
`createPayment`, `bileeNotify`), together with a byte-level SHA-256 so that
the signer is fully executable.  Theorems at the end settle the stated
properties of the specification against these embeddings.
-/

namespace Duck

/-! ### SHA-256 over byte lists

The source calls Node's `crypto.createHash("sha256")`.  We embed the FIPS
180-4 algorithm over `List Nat` (each element a byte), with 32-bit words
represented as `Nat` reduced modulo `2^32`. -/

def w32 : Nat := 4294967296

def wadd (a b : Nat) : Nat := (a + b) % w32

def rotr (n x : Nat) : Nat := ((x >>> n) ||| (x <<< (32 - n))) % w32

def shaCh (x y z : Nat) : Nat := (x &&& y) ^^^ ((4294967295 ^^^ x) &&& z)

def shaMaj (x y z : Nat) : Nat := (x &&& y) ^^^ (x &&& z) ^^^ (y &&& z)

def bigSigma0 (x : Nat) : Nat := rotr 2 x ^^^ rotr 13 x ^^^ rotr 22 x

def bigSigma1 (x : Nat) : Nat := rotr 6 x ^^^ rotr 11 x ^^^ rotr 25 x

def smallSigma0 (x : Nat) : Nat := rotr 7 x ^^^ rotr 18 x ^^^ (x >>> 3)

def smallSigma1 (x : Nat) : Nat := rotr 17 x ^^^ rotr 19 x ^^^ (x >>> 10)

def shaK : List Nat :=
  [1116352408, 1899447441, 3049323471, 3921009573, 961987163, 1508970993,
   2453635748, 2870763221, 3624381080, 310598401, 607225278, 1426881987,
   1925078388, 2162078206, 2614888103, 3248222580, 3835390401, 4022224774,
   264347078, 604807628, 770255983, 1249150122, 1555081692, 1996064986,
   2554220882, 2821834349, 2952996808, 3210313671, 3336571891, 3584528711,
   113926993, 338241895, 666307205, 773529912, 1294757372, 1396182291,
   1695183700, 1986661051, 2177026350, 2456956037, 2730485921, 2820302411,
   3259730800, 3345764771, 3516065817, 3600352804, 4094571909, 275423344,
   430227734, 506948616, 659060556, 883997877, 958139571, 1322822218,
   1537002063, 1747873779, 1955562222, 2024104815, 2227730452, 2361852424,
   2428436474, 2756734187, 3204031479, 3329325298]

def shaH0 : List Nat :=
  [1779033703, 3144134277, 1013904242, 2773480762,
   1359893119, 2600822924, 528734635, 1541459225]

/-- Message padding: append 0x80, zero bytes to 56 mod 64, then the bit
length as an 8-byte big-endian integer. -/
def shaPad (msg : List Nat) : List Nat :=
  let len := msg.length
  let zeros := (119 - len % 64) % 64
  let bitLen := len * 8
  msg ++ [0x80] ++ List.replicate zeros 0 ++
    [(bitLen >>> 56) &&& 255, (bitLen >>> 48) &&& 255, (bitLen >>> 40) &&& 255,
     (bitLen >>> 32) &&& 255, (bitLen >>> 24) &&& 255, (bitLen >>> 16) &&& 255,
     (bitLen >>> 8) &&& 255, bitLen &&& 255]

/-- Group bytes into big-endian 32-bit words. -/
def bytesToWords : List Nat → List Nat
  | b0 :: b1 :: b2 :: b3 :: rest =>
      (((b0 * 256 + b1) * 256 + b2) * 256 + b3) :: bytesToWords rest
  | _ => []

/-- Split a word list into 16-word blocks (the padded input is always a
multiple of 16 words, so the final catch-all is never reached). -/
def toBlocks : List Nat → List (List Nat)
  | [] => []
  | w0 :: w1 :: w2 :: w3 :: w4 :: w5 :: w6 :: w7 ::
    w8 :: w9 :: w10 :: w11 :: w12 :: w13 :: w14 :: w15 :: rest =>
      [w0, w1, w2, w3, w4, w5, w6, w7, w8, w9, w10, w11, w12, w13, w14, w15]
        :: toBlocks rest
  | other => [other]

/-- Expand a 16-word block to the 64-entry message schedule. -/
def msgSchedule (block : List Nat) : List Nat :=
  (List.range 64).foldl
    (fun ws i =>
      if i < 16 then ws ++ [block.getD i 0]
      else
        ws ++ [wadd (wadd (smallSigma1 (ws.getD (i - 2) 0)) (ws.getD (i - 7) 0))
                    (wadd (smallSigma0 (ws.getD (i - 15) 0)) (ws.getD (i - 16) 0))])
    []

def compressBlock (h : List Nat) (block : List Nat) : List Nat :=
  let w := msgSchedule block
  let st :=
    (List.range 64).foldl
      (fun st i =>
        match st with
        | [a, b, c, d, e, f, g, hh] =>
          let t1 := wadd hh (wadd (bigSigma1 e)
            (wadd (shaCh e f g) (wadd (shaK.getD i 0) (w.getD i 0))))
          let t2 := wadd (bigSigma0 a) (shaMaj a b c)
          [wadd t1 t2, a, b, c, wadd d t1, e, f, g]
        | other => other)
      h
  match h, st with
  | [h0, h1, h2, h3, h4, h5, h6, h7], [a, b, c, d, e, f, g, hh] =>
      [wadd h0 a, wadd h1 b, wadd h2 c, wadd h3 d,
       wadd h4 e, wadd h5 f, wadd h6 g, wadd h7 hh]
  | _, _ => h

def sha256Words (msg : List Nat) : List Nat :=
  (toBlocks (bytesToWords (shaPad msg))).foldl compressBlock shaH0

def hexDigit (n : Nat) : Char :=
  if n < 10 then Char.ofNat (48 + n) else Char.ofNat (87 + n)

def wordToHex (w : Nat) : List Char :=
  (List.range 8).map (fun i => hexDigit ((w >>> ((7 - i) * 4)) &&& 15))

/-- Lowercase hexadecimal SHA-256 digest of a byte list. -/
def sha256Hex (msg : List Nat) : String :=
  ⟨((sha256Words msg).map wordToHex).flatten⟩

/-! ### UTF-8 encoding -/

def utf8Char (c : Char) : List Nat :=
  let n := c.toNat
  if n < 0x80 then [n]
  else if n < 0x800 then
    [0xC0 ||| (n >>> 6), 0x80 ||| (n &&& 0x3F)]
  else if n < 0x10000 then
    [0xE0 ||| (n >>> 12), 0x80 ||| ((n >>> 6) &&& 0x3F), 0x80 ||| (n &&& 0x3F)]
  else
    [0xF0 ||| (n >>> 18), 0x80 ||| ((n >>> 12) &&& 0x3F),
     0x80 ||| ((n >>> 6) &&& 0x3F), 0x80 ||| (n &&& 0x3F)]

def utf8Encode (s : String) : List Nat :=
  (s.data.map utf8Char).flatten

/-- SHA-256 hex digest of the UTF-8 bytes of a string, as
`crypto.createHash("sha256").update(s, "utf8").digest("hex")` produces. -/
def sha256HexOfString (s : String) : String :=
  sha256Hex (utf8Encode s)

/-! ### Payloads and the BileePay signer

A signing payload is a JavaScript object: an insertion-ordered association
list from string keys to scalar values (objects never hold duplicate keys).
`Val` covers the scalar values the handlers put into payloads, coerced to
strings exactly as `Array.prototype.join("")` coerces them. -/

inductive Val where
  | str (s : String)
  | num (n : Int)
  | boolean (b : Bool)
  | null
deriving DecidableEq

/-- String coercion used by `[...].join("")`: numbers print as decimal
text, booleans as `true` / `false`, `null` / `undefined` as the empty
string. -/
def valToString : Val → String
  | .str s => s
  | .num n => toString n
  | .boolean b => if b then "true" else "false"
  | .null => ""

abbrev Payload : Type := List (String × Val)

def keysOf (m : Payload) : List String := m.map Prod.fst

def hasKey (m : Payload) (k : String) : Bool := (keysOf m).contains k

/-- First-match lookup, `undefined`-as-`null` when absent (a key produced
by `Object.keys` is always present, so the default is never observed). -/
def lookupD : Payload → String → Val
  | [], _ => .null
  | kv :: rest, k => if kv.1 = k then kv.2 else lookupD rest k

/-- `{...data, k: v}`: overwrite the value in place when the key exists,
otherwise append the new entry. -/
def objSet (m : Payload) (k : String) (v : Val) : Payload :=
  if hasKey m k then m.map (fun kv => if kv.1 = k then (k, v) else kv)
  else m ++ [(k, v)]

/-- Drop every entry carrying the given key. -/
def removeKey : Payload → String → Payload
  | [], _ => []
  | kv :: rest, k => if kv.1 = k then removeKey rest k else kv :: removeKey rest k

/-- Lexicographic comparison of code-point sequences: the order
`Array.prototype.sort()` compares string elements with (UTF-16 code units
in JavaScript, identical on these ASCII keys). -/
def charListLt : List Char → List Char → Bool
  | [], [] => false
  | [], _ :: _ => true
  | _ :: _, [] => false
  | c1 :: r1, c2 :: r2 =>
      if c1.toNat < c2.toNat then true
      else if c2.toNat < c1.toNat then false
      else charListLt r1 r2

def strLt (a b : String) : Bool := charListLt a.data b.data

/-- Insertion sort on strings under `strLt`. -/
def insertSorted (x : String) : List String → List String
  | [] => [x]
  | y :: ys => if strLt x y then x :: y :: ys else y :: insertSorted x ys

def sortKeys : List String → List String
  | [] => []
  | x :: xs => insertSorted x (sortKeys xs)

def excludedKeys : List String := ["metadata", "signature"]

/-- The `valuesString` the signer hashes: spread the secret in under the
reserved key `password`, drop the keys of `excludedKeys`, sort the
remaining keys, and join the looked-up values with no separator. -/
def signedString (data : Payload) (password : String) : String :=
  let tokenData := objSet data "password" (.str password)
  let sortedKeys := sortKeys ((keysOf tokenData).filter (fun k => !excludedKeys.contains k))
  String.join (sortedKeys.map (fun k => valToString (lookupD tokenData k)))

/-- `generateSignature` from the source (`src/server.js`,
`src/unnamed/part_001` `generateSignatureNode`, `src/unnamed/part_002`):
SHA-256, rendered as lowercase hex, of the UTF-8 bytes of the canonical
`valuesString`. -/
def generateSignature (data : Payload) (password : String) : String :=
  sha256HexOfString (signedString data password)

/-- The canonical string of §4.1 of the spec, defined by the spec's own
steps: form the working map `payload ∪ {password: secret}`, remove the
entries keyed `signature` and `metadata`, sort the remaining keys
lexicographically, and concatenate the coerced values in that order. -/
def specCanonical (payload : Payload) (secret : String) : String :=
  let working := objSet payload "password" (.str secret)
  let remaining := removeKey (removeKey working "signature") "metadata"
  String.join ((sortKeys (keysOf remaining)).map (fun k => valToString (lookupD remaining k)))

/-- Modelled from the spec: the repository ships no `verify` function (only
the signer `generateSignature` appears in the source), so §4.1's
`verify(payload, providedSignature, secret)` is modelled from its words:
recompute the signature over the payload after stripping any existing
`signature` field, and compare it with the provided signature (the
constant-time aspect of the comparison has no observable effect on the
result). -/
def verifySig (payload : Payload) (providedSignature : String) (secret : String) : Bool :=
  generateSignature (removeKey payload "signature") secret = providedSignature

/-! ### Data model

Orders and products as the handlers store them in `db.json`.  Optional
fields are fields a revision only sets on some paths (`email` is absent on
orders created by `/create-payment`, timestamps are absent until first
set).  Wall-clock readings (`new Date().toISOString()`) enter every handler
as an explicit `now : String` argument. -/

structure Product where
  id : String
  name : String
  price : Int
  img : String
  gift : Bool
deriving DecidableEq

/-- A cart is a JavaScript object mapping product id to quantity; we keep
its insertion-ordered entry list as `Object.entries` exposes it. -/
abbrev Cart : Type := List (String × Int)

structure Order where
  id : String
  email : Option String := none
  cart : Cart := []
  amount : Int := 0
  status : String := ""
  code : Option String := none
  created_at : String := ""
  updated_at : String := ""
  code_submitted_at : Option String := none
  completed_at : Option String := none
  rejected_at : Option String := none
  paid_at : Option String := none
  admin_comment : Option String := none
  payment_status : Option String := none
  payment_method : Option String := none
  ip_address : Option String := none
deriving DecidableEq

structure Store where
  products : List Product
  orders : List Order
deriving DecidableEq

/-- `findIndex` + in-place mutation: rewrite the first element satisfying
the predicate, leave everything else untouched. -/
def updateFirst (p : α → Bool) (f : α → α) : List α → List α
  | [] => []
  | x :: xs => if p x then f x :: xs else x :: updateFirst p f xs

/-- `calculateOrderTotal` from the source: walk the cart entries, add
`price * quantity` for each product id found in the catalog, silently skip
unknown ids. -/
def calculateOrderTotal (products : List Product) (cart : Cart) : Int :=
  cart.foldl
    (fun total e =>
      match products.find? (fun p => p.id = e.1) with
      | some product => total + product.price * e.2
      | none => total)
    0

/-! ### Handlers

Each handler is embedded as a pure function from the request fields (an
`Option` marks a field that may be absent from the JSON body) and the
current store to the new store and the response actually sent.  Empty
strings are checked where the JavaScript tests truthiness of a string. -/

inductive SubmitEmailResp where
  | missingFields
  | ok (order_id email : String) (amount : Int)
deriving DecidableEq

/-- `POST /submit-email` from `src/server.js` (first revision) and
`src/unnamed/part_001`: recompute the amount from the current catalog, then
create the order as `pending_email` or overwrite email/cart/amount/status
in place. -/
def submitEmail (store : Store) (order_id email : Option String)
    (cart : Option Cart) (now : String) : Store × SubmitEmailResp :=
  match order_id, email, cart with
  | some oid, some em, some c =>
    if oid = "" ∨ em = "" then (store, .missingFields)
    else
      let amount := calculateOrderTotal store.products c
      match store.orders.find? (fun o => o.id = oid) with
      | none =>
          let newOrder : Order :=
            { id := oid, email := some em, cart := c, amount := amount,
              status := "pending_email", created_at := now, updated_at := now }
          ({ store with orders := store.orders ++ [newOrder] }, .ok oid em amount)
      | some _ =>
          ({ store with
              orders := updateFirst (fun o => o.id = oid)
                (fun o => { o with email := some em, cart := c, amount := amount,
                                   status := "pending_email", updated_at := now })
                store.orders },
           .ok oid em amount)
  | _, _, _ => (store, .missingFields)

/-- The email regex of `src/unnamed/part_002`,
`/^[^\s@]+@[^\s@]+\.[^\s@]+$/`: exactly one `@`, a nonempty whitespace-free
local part, and a domain part containing a dot that is neither its first
nor its last character, all characters free of whitespace. -/
def emailValid (s : String) : Bool :=
  match s.data.splitOn '@' with
  | [localPart, domain] =>
      localPart ≠ [] ∧ domain ≠ [] ∧
      (localPart ++ domain).all (fun c => !c.isWhitespace) ∧
      ((domain.drop 1).dropLast.contains '.')
  | _ => false

inductive SubmitEmailSecResp where
  | missingFields
  | invalidEmail
  | cartLimitExceeded
  | ok (order_id email : String) (amount : Int)
deriving DecidableEq

/-- `POST /submit-email` from `src/unnamed/part_002`: additionally
validates the email syntactically and enforces the configured cart ceiling
before touching the store. -/
def submitEmailSecure (maxCartTotal : Int) (store : Store)
    (order_id email : Option String) (cart : Option Cart)
    (now ip : String) : Store × SubmitEmailSecResp :=
  match order_id, email, cart with
  | some oid, some em, some c =>
    if oid = "" ∨ em = "" then (store, .missingFields)
    else if !emailValid em then (store, .invalidEmail)
    else
      let amount := calculateOrderTotal store.products c
      if amount > maxCartTotal then (store, .cartLimitExceeded)
      else
        match store.orders.find? (fun o => o.id = oid) with
        | none =>
            let newOrder : Order :=
              { id := oid, email := some em, cart := c, amount := amount,
                status := "pending_email", created_at := now, updated_at := now,
                ip_address := some ip }
            ({ store with orders := store.orders ++ [newOrder] }, .ok oid em amount)
        | some _ =>
            ({ store with
                orders := updateFirst (fun o => o.id = oid)
                  (fun o => { o with email := some em, cart := c, amount := amount,
                                     status := "pending_email", updated_at := now,
                                     ip_address := some ip })
                  store.orders },
             .ok oid em amount)
  | _, _, _ => (store, .missingFields)

inductive SubmitCodeResp where
  | missingFields
  | orderNotFound
  | emailMismatch
  | ok (order_id : String)
deriving DecidableEq

/-- `POST /api/submit-code`: the submitted email must be strictly equal to
the stored one; only then are `code`, `status`, `code_submitted_at` and
`updated_at` written. -/
def submitCode (store : Store) (order_id email code : Option String)
    (now : String) : Store × SubmitCodeResp :=
  match order_id, email, code with
  | some oid, some em, some cd =>
    if oid = "" ∨ em = "" ∨ cd = "" then (store, .missingFields)
    else
      match store.orders.find? (fun o => o.id = oid) with
      | none => (store, .orderNotFound)
      | some o =>
          if o.email ≠ some em then (store, .emailMismatch)
          else
            ({ store with
                orders := updateFirst (fun o => o.id = oid)
                  (fun o => { o with code := some cd, status := "pending_code",
                                     code_submitted_at := some now, updated_at := now })
                  store.orders },
             .ok oid)
  | _, _, _ => (store, .missingFields)

inductive StatusUpdateResp where
  | unauthorized
  | missingFields
  | orderNotFound
  | ok (order_id status : String)
deriving DecidableEq

/-- The per-order mutation of `POST /api/order-status-update`: set status
and `updated_at`, attach the admin comment when given, and stamp
`completed_at` / `rejected_at` with the current time whenever the new
status is `completed` / `rejected`. -/
def applyStatusUpdate (st : String) (admin_comment : Option String)
    (now : String) (o : Order) : Order :=
  let o := { o with status := st, updated_at := now }
  let o :=
    match admin_comment with
    | some ac => if ac = "" then o else { o with admin_comment := some ac }
    | none => o
  if st = "completed" then { o with completed_at := some now }
  else if st = "rejected" then { o with rejected_at := some now }
  else o

/-- `POST /api/order-status-update` from `src/server.js` (first revision):
guarded by `!secret || secret !== CONFIG.API_SECRET`. -/
def orderStatusUpdate (apiSecret : String) (store : Store)
    (secret order_id status admin_comment : Option String)
    (now : String) : Store × StatusUpdateResp :=
  match secret with
  | none => (store, .unauthorized)
  | some s =>
    if s = "" ∨ s ≠ apiSecret then (store, .unauthorized)
    else
      match order_id, status with
      | some oid, some st =>
        if oid = "" ∨ st = "" then (store, .missingFields)
        else
          match store.orders.find? (fun o => o.id = oid) with
          | none => (store, .orderNotFound)
          | some _ =>
              ({ store with
                  orders := updateFirst (fun o => o.id = oid)
                    (applyStatusUpdate st admin_comment now) store.orders },
               .ok oid st)
      | _, _ => (store, .missingFields)

/-- `API_SECRET = process.env.API_SECRET || "duck_shop_secret_2024"` from
the revisions with a fallback (`src/server.js` second revision,
`src/unnamed/part_001`): an unset or empty environment variable resolves to
the source-visible constant. -/
def resolveApiSecret (env : Option String) : String :=
  match env with
  | some s => if s = "" then "duck_shop_secret_2024" else s
  | none => "duck_shop_secret_2024"

/-- The admin check `secret !== API_SECRET` shared by every admin endpoint
of `src/unnamed/part_001` and the second revision of `src/server.js`
(order-status-update, admin orders/products listing, add/delete product,
export, cleanup): the caller-supplied secret must be present and equal to
the resolved `API_SECRET`. -/
def p1AdminAuthorized (provided : Option String) (env : Option String) : Bool :=
  match provided with
  | some s => s = resolveApiSecret env
  | none => false

/-- `POST /api/order-status-update` from `src/unnamed/part_001`: identical
to the first revision's handler except that the secret is compared by the
shared `secret !== API_SECRET` check against the resolved secret. -/
def orderStatusUpdateP1 (env : Option String) (store : Store)
    (secret order_id status admin_comment : Option String)
    (now : String) : Store × StatusUpdateResp :=
  if !p1AdminAuthorized secret env then (store, .unauthorized)
  else
    match order_id, status with
    | some oid, some st =>
      if oid = "" ∨ st = "" then (store, .missingFields)
      else
        match store.orders.find? (fun o => o.id = oid) with
        | none => (store, .orderNotFound)
        | some _ =>
            ({ store with
                orders := updateFirst (fun o => o.id = oid)
                  (applyStatusUpdate st admin_comment now) store.orders },
             .ok oid st)
    | _, _ => (store, .missingFields)

structure PayConfig where
  shop_id : Int
  bilee_password : String
  max_cart_total : Int
  frontend_url : String
  server_url : String
deriving DecidableEq

inductive CreatePayResp where
  | validationError
  | notConfigured
  | emptyCart
  | cartLimitExceeded
  | gatewayError
  | ok (url order_id : String) (amount : Int)
deriving DecidableEq

/-- Outcome of `POST /create-payment` together with which external steps
were actually reached: whether a signature was computed and whether the
gateway was contacted. -/
structure CreatePaymentResult where
  store : Store
  resp : CreatePayResp
  signatureComputed : Bool
  gatewayCalled : Bool
deriving DecidableEq

/-- `POST /create-payment` from `src/unnamed/part_002` (the revision of
`src/server.js` is the same handler without the ceiling check): validate,
reject a zero-total cart, reject over the ceiling, then persist the
`created` order, sign the gateway payload and call the gateway.  The
gateway's reply enters as `gatewayUrl` (`none` models a reply without a
redirect URL). -/
def createPayment (cfg : PayConfig) (store : Store) (items : Option Cart)
    (method : Option String) (now oid : String)
    (gatewayUrl : Option String) : CreatePaymentResult :=
  match items, method with
  | some cart, some m =>
    if m = "" then ⟨store, .validationError, false, false⟩
    else if cfg.shop_id = 0 ∨ cfg.bilee_password = "" then
      ⟨store, .notConfigured, false, false⟩
    else
      let amountRub := calculateOrderTotal store.products cart
      if amountRub = 0 then ⟨store, .emptyCart, false, false⟩
      else if amountRub > cfg.max_cart_total then
        ⟨store, .cartLimitExceeded, false, false⟩
      else
        let newOrder : Order :=
          { id := oid, cart := cart, amount := amountRub, status := "created",
            created_at := now, updated_at := now, payment_method := some m }
        let store' := { store with orders := store.orders ++ [newOrder] }
        let payload : Payload :=
          [("order_id", .str oid), ("method_slug", .str m),
           ("amount", .num amountRub), ("shop_id", .num cfg.shop_id),
           ("success_url", .str (cfg.frontend_url ++ "/success-pay.html?order=" ++ oid)),
           ("fail_url", .str (cfg.frontend_url ++ "/fail.html")),
           ("description", .str ("Заказ #" ++ oid.take 8)),
           ("notify_url", .str (cfg.server_url ++ "/bilee-notify"))]
        let _signature := generateSignature payload cfg.bilee_password
        match gatewayUrl with
        | some url => ⟨store', .ok url oid amountRub, true, true⟩
        | none => ⟨store', .gatewayError, true, true⟩
  | _, _ => ⟨store, .validationError, false, false⟩

/-- The fields the webhook handler destructures from the gateway's POST
body; `signature` rides along in the body but is never read. -/
structure WebhookBody where
  order_id : Option String := none
  status : Option String := none
  amount : Option Int := none
  signature : Option String := none
deriving DecidableEq

inductive BileeResp where
  | ok
deriving DecidableEq

/-- The per-order mutation of `POST /bilee-notify`: overwrite
`payment_status` and `updated_at`, and stamp `paid_at` with the current
time whenever the reported status is `success`. -/
def applyWebhook (status : Option String) (now : String) (o : Order) : Order :=
  let o := { o with payment_status := status, updated_at := now }
  if status = some "success" then { o with paid_at := some now } else o

/-- `POST /bilee-notify` from `src/server.js` (first revision) and
`src/unnamed/part_002`: if the body names an existing order, apply
`applyWebhook` to it, and answer 200 unconditionally.  No field of the
body other than `order_id` and `status` is ever read — in particular the
`signature` field is ignored. -/
def bileeNotify (store : Store) (body : WebhookBody) (now : String) :
    Store × BileeResp :=
  match body.order_id with
  | some oid =>
    if oid = "" then (store, .ok)
    else
      match store.orders.find? (fun o => o.id = oid) with
      | some _ =>
          ({ store with
              orders := updateFirst (fun o => o.id = oid)
                (applyWebhook body.status now) store.orders },
           .ok)
      | none => (store, .ok)
  | none => (store, .ok)

/-! ### Helper lemmas on lists, strings and payloads -/

theorem data_join (l : List String) :
    (String.join l).data = (l.map String.data).flatten := by
  have h : ∀ (l : List String) (acc : String),
      (l.foldl (· ++ ·) acc).data = acc.data ++ (l.map String.data).flatten := by
    intro l
    induction l with
    | nil => intro acc; simp
    | cons x xs ih =>
        intro acc
        simp only [List.foldl_cons, List.map_cons, List.flatten_cons]
        rw [ih, String.data_append, List.append_assoc]
  have := h l ""
  simpa [String.join] using this

theorem join_ne_of_single_diff (u v : List String) (a b : String) (hab : a ≠ b) :
    String.join (u ++ a :: v) ≠ String.join (u ++ b :: v) := by
  intro h
  apply hab
  have hd : (String.join (u ++ a :: v)).data = (String.join (u ++ b :: v)).data := by
    rw [h]
  rw [data_join, data_join] at hd
  simp only [List.map_append, List.map_cons, List.flatten_append, List.flatten_cons] at hd
  have h2 := List.append_cancel_left hd
  exact String.ext (List.append_cancel_right h2)

theorem mem_insertSorted {y x : String} {l : List String} :
    y ∈ insertSorted x l ↔ y = x ∨ y ∈ l := by
  induction l with
  | nil => simp [insertSorted]
  | cons z zs ih =>
      by_cases h : strLt x z
      · simp [insertSorted, h]
      · simp only [insertSorted, if_neg h, List.mem_cons, ih]
        tauto

theorem insertSorted_perm (x : String) (l : List String) :
    (insertSorted x l).Perm (x :: l) := by
  induction l with
  | nil => simp [insertSorted]
  | cons z zs ih =>
      by_cases h : strLt x z
      · simp [insertSorted, h]
      · simp only [insertSorted, if_neg h]
        exact List.Perm.trans (List.Perm.cons z ih) (List.Perm.swap x z zs)

theorem sortKeys_perm (l : List String) : (sortKeys l).Perm l := by
  induction l with
  | nil => simp [sortKeys]
  | cons x xs ih =>
      exact List.Perm.trans (insertSorted_perm x (sortKeys xs)) (List.Perm.cons x ih)

theorem mem_sortKeys {y : String} {l : List String} : y ∈ sortKeys l ↔ y ∈ l :=
  (sortKeys_perm l).mem_iff

theorem count_sortKeys (a : String) (l : List String) :
    (sortKeys l).count a = l.count a :=
  (sortKeys_perm l).count_eq a

theorem exists_split_of_count_eq_one {l : List String} {k : String}
    (h : l.count k = 1) : ∃ u v, l = u ++ k :: v ∧ k ∉ u ∧ k ∉ v := by
  induction l with
  | nil => simp [List.count_nil] at h
  | cons x xs ih =>
      by_cases hx : x = k
      · subst hx
        have hz : xs.count x = 0 := by
          simp [List.count_cons] at h
          omega
        exact ⟨[], xs, by simp, by simp, List.not_mem_of_count_eq_zero hz⟩
      · have hone : xs.count k = 1 := by simpa [List.count_cons, hx] using h
        obtain ⟨u, v, heq, hu, hv⟩ := ih hone
        refine ⟨x :: u, v, by simp [heq], ?_, hv⟩
        intro hmem
        rcases List.mem_cons.mp hmem with h1 | h1
        · exact hx h1.symm
        · exact hu h1

theorem keysOf_append (l1 l2 : Payload) :
    keysOf (l1 ++ l2) = keysOf l1 ++ keysOf l2 := by
  simp [keysOf]

theorem keysOf_removeKey (m : Payload) (k : String) :
    keysOf (removeKey m k) = (keysOf m).filter (fun x => x ≠ k) := by
  induction m with
  | nil => rfl
  | cons kv rest ih =>
      by_cases h : kv.1 = k
      · simpa [removeKey, keysOf, List.filter_cons, h] using ih
      · simpa [removeKey, keysOf, List.filter_cons, h] using ih

theorem lookupD_removeKey {m : Payload} {k kOther : String} (h : k ≠ kOther) :
    lookupD (removeKey m kOther) k = lookupD m k := by
  induction m with
  | nil => rfl
  | cons kv rest ih =>
      by_cases hk : kv.1 = k
      · have hno : ¬ kv.1 = kOther := by rw [hk]; exact h
        simp only [removeKey, if_neg hno, lookupD, if_pos hk]
      · by_cases ho : kv.1 = kOther
        · simp only [removeKey, if_pos ho, lookupD, if_neg hk]
          exact ih
        · simp only [removeKey, if_neg ho, lookupD, if_neg hk]
          exact ih

theorem lookupD_congr (q1 q2 : Payload) (k : String) (a b : Val) {kOther : String}
    (h : kOther ≠ k) :
    lookupD (q1 ++ (k, a) :: q2) kOther = lookupD (q1 ++ (k, b) :: q2) kOther := by
  induction q1 with
  | nil => simp [lookupD, Ne.symm h]
  | cons kv rest ih =>
      by_cases hk : kv.1 = kOther
      · simp [lookupD, hk]
      · simpa [lookupD, hk] using ih

theorem lookupD_middle (q1 q2 : Payload) (k : String) (a : Val)
    (h : k ∉ keysOf q1) :
    lookupD (q1 ++ (k, a) :: q2) k = a := by
  induction q1 with
  | nil => simp [lookupD]
  | cons kv rest ih =>
      simp only [keysOf, List.map_cons, List.mem_cons] at h
      push_neg at h
      simpa [lookupD, Ne.symm h.1] using ih (by simpa [keysOf] using h.2)

/-! ### Lemmas about the signer -/

theorem hasKey_iff {m : Payload} {k : String} : hasKey m k = true ↔ k ∈ keysOf m := by
  simp [hasKey]

theorem hasKey_false_iff {m : Payload} {k : String} : hasKey m k = false ↔ k ∉ keysOf m := by
  simp [hasKey]

theorem keysOf_overwriteMap (m : Payload) (k : String) (v : Val) :
    keysOf (m.map (fun kv => if kv.1 = k then (k, v) else kv)) = keysOf m := by
  induction m with
  | nil => rfl
  | cons kv rest ih =>
      by_cases h : kv.1 = k
      · simpa [keysOf, h] using ih
      · simpa [keysOf, h] using ih

theorem overwriteMap_id {m : Payload} {k : String} (v : Val) (h : k ∉ keysOf m) :
    m.map (fun kv => if kv.1 = k then (k, v) else kv) = m := by
  induction m with
  | nil => rfl
  | cons kv rest ih =>
      simp only [keysOf, List.map_cons, List.mem_cons] at h
      push_neg at h
      simp only [List.map_cons]
      rw [if_neg (fun hh => h.1 hh.symm), ih (by simpa [keysOf] using h.2)]

theorem keysOf_objSet (m : Payload) (k : String) (v : Val) :
    keysOf (objSet m k v) = if hasKey m k then keysOf m else keysOf m ++ [k] := by
  by_cases h : hasKey m k
  · simp [objSet, h, keysOf_overwriteMap]
  · simp [objSet, h, keysOf_append, keysOf]

/-- The filter predicate of the signer, pointwise in terms of the two
excluded key names. -/
theorem notExcluded_eq (x : String) :
    (!excludedKeys.contains x) = (decide (x ≠ "metadata") && decide (x ≠ "signature")) := by
  by_cases h1 : x = "metadata" <;> by_cases h2 : x = "signature" <;> simp [excludedKeys, h1, h2]

theorem keysOf_remaining (m : Payload) :
    keysOf (removeKey (removeKey m "signature") "metadata")
      = (keysOf m).filter (fun x => !excludedKeys.contains x) := by
  rw [keysOf_removeKey, keysOf_removeKey, List.filter_filter]
  exact List.filter_congr (fun x _ => (notExcluded_eq x).symm)

theorem lookupD_remaining {m : Payload} {k : String}
    (h : (!excludedKeys.contains k) = true) :
    lookupD (removeKey (removeKey m "signature") "metadata") k = lookupD m k := by
  rw [notExcluded_eq] at h
  simp only [Bool.and_eq_true, decide_eq_true_eq] at h
  rw [lookupD_removeKey h.1, lookupD_removeKey h.2]

/-- The `valuesString` the source hashes coincides with the canonical
string described step-by-step by §4.1 of the spec. -/
theorem signedString_eq_specCanonical (data : Payload) (secret : String) :
    signedString data secret = specCanonical data secret := by
  simp only [signedString, specCanonical]
  rw [keysOf_remaining]
  refine congrArg String.join (List.map_congr_left ?_)
  intro k hk
  have hmem : k ∈ (keysOf (objSet data "password" (Val.str secret))).filter
      (fun x => !excludedKeys.contains x) := mem_sortKeys.mp hk
  have hfil := (List.mem_filter.mp hmem).2
  rw [lookupD_remaining hfil]

theorem generateSignature_eq_spec (data : Payload) (secret : String) :
    generateSignature data secret = sha256HexOfString (specCanonical data secret) := by
  rw [generateSignature, signedString_eq_specCanonical]

theorem removeKey_append (l1 l2 : Payload) (k : String) :
    removeKey (l1 ++ l2) k = removeKey l1 k ++ removeKey l2 k := by
  induction l1 with
  | nil => rfl
  | cons kv rest ih =>
      by_cases h : kv.1 = k
      · simp [removeKey, h, ih]
      · simp [removeKey, h, ih]

theorem overwriteMap_removeKey (m : Payload) (k p : String) (v : Val) (hpk : p ≠ k) :
    (removeKey m k).map (fun kv => if kv.1 = p then (p, v) else kv)
      = removeKey (m.map (fun kv => if kv.1 = p then (p, v) else kv)) k := by
  induction m with
  | nil => rfl
  | cons kv rest ih =>
      by_cases hkv : kv.1 = k
      · have hkvp : ¬ kv.1 = p := by rw [hkv]; exact fun hh => hpk hh.symm
        simp only [removeKey, if_pos hkv, List.map_cons, if_neg hkvp, ih]
      · by_cases hkvp : kv.1 = p
        · simp only [removeKey, if_neg hkv, List.map_cons, if_pos hkvp, ih]
          rw [if_neg (show ¬ ((p, v) : String × Val).1 = k from by simpa using hpk)]
        · simp only [removeKey, if_neg hkv, List.map_cons, if_neg hkvp, ih]

theorem hasKey_removeKey (m : Payload) (k p : String) (hpk : p ≠ k) :
    hasKey (removeKey m k) p = hasKey m p := by
  by_cases hp : p ∈ keysOf m
  · have h1 : hasKey m p = true := hasKey_iff.mpr hp
    have h2 : hasKey (removeKey m k) p = true := by
      rw [hasKey_iff, keysOf_removeKey, List.mem_filter]
      exact ⟨hp, by simpa using hpk⟩
    rw [h1, h2]
  · have h1 : hasKey m p = false := hasKey_false_iff.mpr hp
    have h2 : hasKey (removeKey m k) p = false := by
      rw [hasKey_false_iff, keysOf_removeKey, List.mem_filter]
      intro hcon
      exact hp hcon.1
    rw [h1, h2]

theorem objSet_removeKey (data : Payload) (k : String) (v : Val)
    (hkp : k ≠ "password") :
    objSet (removeKey data k) "password" v
      = removeKey (objSet data "password" v) k := by
  by_cases hp : hasKey data "password"
  · have h2 : hasKey (removeKey data k) "password" = true :=
      (hasKey_removeKey data k "password" (Ne.symm hkp)).trans hp
    rw [objSet, if_pos h2, objSet, if_pos hp]
    exact overwriteMap_removeKey data k "password" v (Ne.symm hkp)
  · have hfalse : hasKey data "password" = false := Bool.eq_false_iff.mpr hp
    have h2 : hasKey (removeKey data k) "password" = false :=
      (hasKey_removeKey data k "password" (Ne.symm hkp)).trans hfalse
    rw [objSet, if_neg (by rw [h2]; simp), objSet, if_neg hp, removeKey_append]
    have : removeKey [("password", v)] k = [("password", v)] := by
      simp [removeKey, Ne.symm hkp]
    rw [this]

/-- Removing an excluded key from the payload leaves the signed string
unchanged. -/
theorem signedString_removeKey_excluded (data : Payload) (secret k : String)
    (hk : k = "metadata" ∨ k = "signature") :
    signedString (removeKey data k) secret = signedString data secret := by
  have hkp : k ≠ "password" := by rcases hk with h | h <;> rw [h] <;> decide
  have hnx : ∀ x : String, (!excludedKeys.contains x) = true → x ≠ k := by
    intro x hx
    rw [notExcluded_eq] at hx
    simp only [Bool.and_eq_true, decide_eq_true_eq] at hx
    rcases hk with h | h <;> rw [h]
    · exact hx.1
    · exact hx.2
  simp only [signedString]
  rw [objSet_removeKey data k _ hkp]
  rw [keysOf_removeKey, List.filter_filter]
  have hflt : List.filter
      (fun a => (!excludedKeys.contains a) && decide (a ≠ k))
      (keysOf (objSet data "password" (Val.str secret)))
      = List.filter (fun a => !excludedKeys.contains a)
          (keysOf (objSet data "password" (Val.str secret))) := by
    refine List.filter_congr ?_
    intro x _
    by_cases hc : (!excludedKeys.contains x) = true
    · simp [hc, hnx x hc]
    · simp only [Bool.not_eq_true] at hc
      rw [hc, Bool.false_and]
  rw [hflt]
  refine congrArg String.join (List.map_congr_left ?_)
  intro x hx
  have hxm := List.mem_filter.mp (mem_sortKeys.mp hx)
  exact congrArg valToString (lookupD_removeKey (hnx x hxm.2))

/-- Stripping the `signature` field before re-signing (what `verify` does)
yields the same digest. -/
theorem generateSignature_removeSignature (payload : Payload) (secret : String) :
    generateSignature (removeKey payload "signature") secret
      = generateSignature payload secret := by
  unfold generateSignature
  rw [signedString_removeKey_excluded payload secret "signature" (Or.inr rfl)]

/-- Changing the value stored under a non-excluded key that occurs exactly
once changes the concatenated canonical string, provided the two values
have different string coercions. -/
theorem canonical_ne_of_value_change (Q1 Q2 : Payload) (k : String) (a b : Val)
    (h1 : k ∉ keysOf Q1) (h2 : k ∉ keysOf Q2)
    (hex : (!excludedKeys.contains k) = true)
    (hab : valToString a ≠ valToString b) :
    String.join ((sortKeys ((keysOf (Q1 ++ (k, a) :: Q2)).filter
        (fun x => !excludedKeys.contains x))).map
      (fun x => valToString (lookupD (Q1 ++ (k, a) :: Q2) x)))
    ≠ String.join ((sortKeys ((keysOf (Q1 ++ (k, b) :: Q2)).filter
        (fun x => !excludedKeys.contains x))).map
      (fun x => valToString (lookupD (Q1 ++ (k, b) :: Q2) x))) := by
  have hkeysa : keysOf (Q1 ++ (k, a) :: Q2) = keysOf Q1 ++ k :: keysOf Q2 := by
    simp [keysOf]
  have hkeysb : keysOf (Q1 ++ (k, b) :: Q2) = keysOf Q1 ++ k :: keysOf Q2 := by
    simp [keysOf]
  rw [hkeysa, hkeysb]
  have hcount : ((keysOf Q1 ++ k :: keysOf Q2).filter
      (fun x => !excludedKeys.contains x)).count k = 1 := by
    have hcf := @List.count_filter String _ _
      (fun x => !excludedKeys.contains x) k (keysOf Q1 ++ k :: keysOf Q2) hex
    rw [hcf, List.count_append, List.count_cons]
    rw [List.count_eq_zero_of_not_mem h1, List.count_eq_zero_of_not_mem h2]
    simp
  have hcountS : (sortKeys ((keysOf Q1 ++ k :: keysOf Q2).filter
      (fun x => !excludedKeys.contains x))).count k = 1 := by
    rw [count_sortKeys]
    exact hcount
  obtain ⟨u, v, hsplit, hu, hv⟩ := exists_split_of_count_eq_one hcountS
  rw [hsplit, List.map_append, List.map_append, List.map_cons, List.map_cons]
  rw [lookupD_middle Q1 Q2 k a h1, lookupD_middle Q1 Q2 k b h1]
  have hmapu : u.map (fun x => valToString (lookupD (Q1 ++ (k, a) :: Q2) x))
      = u.map (fun x => valToString (lookupD (Q1 ++ (k, b) :: Q2) x)) :=
    List.map_congr_left (fun x hx => congrArg valToString
      (lookupD_congr Q1 Q2 k a b (fun he => hu (he ▸ hx))))
  have hmapv : v.map (fun x => valToString (lookupD (Q1 ++ (k, a) :: Q2) x))
      = v.map (fun x => valToString (lookupD (Q1 ++ (k, b) :: Q2) x)) :=
    List.map_congr_left (fun x hx => congrArg valToString
      (lookupD_congr Q1 Q2 k a b (fun he => hv (he ▸ hx))))
  rw [hmapu, hmapv]
  exact join_ne_of_single_diff _ _ _ _ hab

/-- Changing the value of a single non-excluded, non-`password` field to a
value with a different string coercion changes the signed string. -/
theorem signedString_ne_of_value_change (q1 q2 : Payload) (k : String)
    (a b : Val) (secret : String)
    (h1 : k ∉ keysOf q1) (h2 : k ∉ keysOf q2)
    (hsig : k ≠ "signature") (hmeta : k ≠ "metadata") (hpass : k ≠ "password")
    (hab : valToString a ≠ valToString b) :
    signedString (q1 ++ (k, a) :: q2) secret
      ≠ signedString (q1 ++ (k, b) :: q2) secret := by
  have hex : (!excludedKeys.contains k) = true := by
    rw [notExcluded_eq]
    simp [hmeta, hsig]
  simp only [signedString]
  by_cases hp : hasKey (q1 ++ (k, a) :: q2) "password"
  · have hpb : hasKey (q1 ++ (k, b) :: q2) "password" = true := by
      rw [hasKey_iff] at hp ⊢
      simpa [keysOf] using hp
    have hobj : ∀ x : Val, objSet (q1 ++ (k, x) :: q2) "password" (Val.str secret)
        = (q1.map (fun kv => if kv.1 = "password" then ("password", Val.str secret) else kv))
          ++ (k, x) ::
          (q2.map (fun kv => if kv.1 = "password" then ("password", Val.str secret) else kv)) := by
      intro x
      rw [objSet]
      rw [if_pos (by rw [hasKey_iff] at hp ⊢; simpa [keysOf] using hp)]
      rw [List.map_append, List.map_cons]
      rw [if_neg (by simpa using hpass)]
    rw [hobj a, hobj b]
    exact canonical_ne_of_value_change _ _ k a b
      (by rwa [keysOf_overwriteMap]) (by rwa [keysOf_overwriteMap]) hex hab
  · have hobj : ∀ x : Val, objSet (q1 ++ (k, x) :: q2) "password" (Val.str secret)
        = q1 ++ (k, x) :: (q2 ++ [("password", Val.str secret)]) := by
      intro x
      rw [objSet]
      rw [if_neg (by rw [hasKey_iff] at hp ⊢; simpa [keysOf] using hp)]
      simp
    rw [hobj a, hobj b]
    refine canonical_ne_of_value_change _ _ k a b h1 ?_ hex hab
    rw [keysOf_append]
    simp only [List.mem_append, keysOf, List.map_cons, List.map_nil, List.mem_singleton]
    push_neg
    exact ⟨h2, hpass⟩

/-- Splitting a payload at its unique occurrence of a key. -/
theorem payload_split_of_count_one {m : Payload} {k : String}
    (h : (keysOf m).count k = 1) :
    ∃ r1 w r2, m = r1 ++ (k, w) :: r2 ∧ k ∉ keysOf r1 ∧ k ∉ keysOf r2 := by
  induction m with
  | nil => simp [keysOf] at h
  | cons kv rest ih =>
      obtain ⟨k1, v1⟩ := kv
      have hkeys : keysOf ((k1, v1) :: rest) = k1 :: keysOf rest := rfl
      by_cases hx : k1 = k
      · subst hx
        have hz : (keysOf rest).count k1 = 0 := by
          rw [hkeys, List.count_cons] at h
          simp at h
          omega
        exact ⟨[], v1, rest, by simp, by simp [keysOf],
          List.not_mem_of_count_eq_zero hz⟩
      · have hone : (keysOf rest).count k = 1 := by
          rw [hkeys, List.count_cons] at h
          simpa [hx] using h
        obtain ⟨r1, w, r2, heq, hr1, hr2⟩ := ih hone
        refine ⟨(k1, v1) :: r1, w, r2, by simp [heq], ?_, hr2⟩
        intro hmem
        rcases List.mem_cons.mp hmem with h1 | h1
        · exact hx h1.symm
        · exact hr1 h1

/-- Changing the secret changes the signed string (for payloads with
pairwise-distinct keys, as JavaScript objects always have). -/
theorem signedString_ne_of_secret_change (payload : Payload) (s1 s2 : String)
    (hnd : (keysOf payload).Nodup) (hs : s1 ≠ s2) :
    signedString payload s1 ≠ signedString payload s2 := by
  have hex : (!excludedKeys.contains "password") = true := by decide
  have hab : valToString (Val.str s1) ≠ valToString (Val.str s2) := by
    simpa [valToString] using hs
  simp only [signedString]
  by_cases hp : hasKey payload "password"
  · have hmem : "password" ∈ keysOf payload := hasKey_iff.mp hp
    have hcount : (keysOf payload).count "password" = 1 :=
      List.count_eq_one_of_mem hnd hmem
    obtain ⟨r1, w, r2, heq, hr1, hr2⟩ := payload_split_of_count_one hcount
    have hobj : ∀ s : String, objSet payload "password" (Val.str s)
        = r1 ++ ("password", Val.str s) :: r2 := by
      intro s
      rw [objSet, if_pos hp, heq, List.map_append, List.map_cons]
      rw [overwriteMap_id _ hr1, overwriteMap_id _ hr2]
      simp
    rw [hobj s1, hobj s2]
    exact canonical_ne_of_value_change r1 r2 "password" _ _ hr1 hr2 hex hab
  · have hnk : "password" ∉ keysOf payload :=
      hasKey_false_iff.mp (Bool.eq_false_iff.mpr hp)
    have hobj : ∀ s : String, objSet payload "password" (Val.str s)
        = payload ++ ("password", Val.str s) :: [] := by
      intro s
      rw [objSet, if_neg hp]
    rw [hobj s1, hobj s2]
    exact canonical_ne_of_value_change payload [] "password" _ _ hnk
      (by simp [keysOf]) hex hab

/-- Changing the value stored under `signature`, `metadata` or `password`
leaves the digest unchanged: those fields never enter the signed material
(`password` is overwritten by the secret before hashing). -/
theorem generateSignature_excluded_field_irrelevant (q1 q2 : Payload)
    (k : String) (a b : Val) (secret : String)
    (hk : k = "signature" ∨ k = "metadata" ∨ k = "password") :
    generateSignature (q1 ++ (k, a) :: q2) secret
      = generateSignature (q1 ++ (k, b) :: q2) secret := by
  rcases hk with h | h | h
  · -- signature / metadata: both sides equal the signature of the stripped payload
    subst h
    have hs : ∀ x : Val,
        signedString (q1 ++ ("signature", x) :: q2) secret
          = signedString (removeKey q1 "signature" ++ removeKey q2 "signature") secret := by
      intro x
      rw [← signedString_removeKey_excluded (q1 ++ ("signature", x) :: q2) secret
        "signature" (Or.inr rfl)]
      rw [removeKey_append]
      congr 2
    unfold generateSignature
    rw [hs a, hs b]
  · subst h
    have hs : ∀ x : Val,
        signedString (q1 ++ ("metadata", x) :: q2) secret
          = signedString (removeKey q1 "metadata" ++ removeKey q2 "metadata") secret := by
      intro x
      rw [← signedString_removeKey_excluded (q1 ++ ("metadata", x) :: q2) secret
        "metadata" (Or.inl rfl)]
      rw [removeKey_append]
      congr 2
    unfold generateSignature
    rw [hs a, hs b]
  · -- password: the secret overwrites the entry before hashing
    subst h
    unfold generateSignature
    congr 1
    simp only [signedString]
    have hobj : ∀ x : Val, objSet (q1 ++ ("password", x) :: q2) "password" (Val.str secret)
        = (q1 ++ ("password", x) :: q2).map
            (fun kv => if kv.1 = "password" then ("password", Val.str secret) else kv) := by
      intro x
      rw [objSet, if_pos (by rw [hasKey_iff]; simp [keysOf])]
    rw [hobj a, hobj b]
    simp

/-! ### Lemmas about the handlers -/

theorem length_updateFirst (p : α → Bool) (f : α → α) (l : List α) :
    (updateFirst p f l).length = l.length := by
  induction l with
  | nil => rfl
  | cons x xs ih => by_cases h : p x <;> simp [updateFirst, h, ih]

theorem find?_updateFirst {p : α → Bool} {f : α → α} {l : List α} {o : α}
    (hf : l.find? p = some o) (hp : p (f o) = true) :
    (updateFirst p f l).find? p = some (f o) := by
  induction l with
  | nil => simp at hf
  | cons x xs ih =>
      by_cases h : p x
      · simp only [List.find?_cons, h] at hf
        cases hf
        simp [updateFirst, h, List.find?_cons, hp]
      · have hb : p x = false := by rwa [Bool.not_eq_true] at h
        simp only [List.find?_cons, hb] at hf
        simpa [updateFirst, hb, List.find?_cons] using ih hf

theorem applyStatusUpdate_id (st : String) (ac : Option String) (now : String)
    (o : Order) : (applyStatusUpdate st ac now o).id = o.id := by
  unfold applyStatusUpdate
  cases ac <;> dsimp only <;> split_ifs <;> rfl

theorem applyStatusUpdate_completed_at (ac : Option String) (now : String)
    (o : Order) : (applyStatusUpdate "completed" ac now o).completed_at = some now := by
  unfold applyStatusUpdate
  cases ac <;> dsimp only <;> split_ifs <;> first | rfl | simp_all

theorem applyStatusUpdate_rejected_at (ac : Option String) (now : String)
    (o : Order) : (applyStatusUpdate "rejected" ac now o).rejected_at = some now := by
  unfold applyStatusUpdate
  cases ac <;> dsimp only <;> split_ifs <;> first | rfl | simp_all

theorem applyWebhook_id (st : Option String) (now : String) (o : Order) :
    (applyWebhook st now o).id = o.id := by
  unfold applyWebhook
  split_ifs <;> rfl

theorem applyWebhook_paid_at (now : String) (o : Order) :
    (applyWebhook (some "success") now o).paid_at = some now := by
  unfold applyWebhook
  simp

/-- The catalog price of a product id, zero when unknown (first match, as
`Array.prototype.find` returns). -/
def priceOf (products : List Product) (pid : String) : Int :=
  match products.find? (fun p => p.id = pid) with
  | some p => p.price
  | none => 0

/-! ### Claim theorems -/

/-- C6: for every cart and catalog state the computed order amount is the
sum of `price(id) * quantity` over exactly those cart entries whose product
id exists in the catalog; entries with unknown ids contribute zero, and the
computation is a total function, so they never cause an error. -/
theorem calculateOrderTotal_spec (products : List Product) (cart : Cart) :
    calculateOrderTotal products cart
      = ((cart.filter (fun e => (products.find? (fun p => p.id = e.1)).isSome)).map
          (fun e => priceOf products e.1 * e.2)).sum := by
  have h : ∀ (c : Cart) (acc : Int),
      c.foldl (fun total e =>
        match products.find? (fun p => p.id = e.1) with
        | some product => total + product.price * e.2
        | none => total) acc
      = acc + ((c.filter (fun e => (products.find? (fun p => p.id = e.1)).isSome)).map
          (fun e => priceOf products e.1 * e.2)).sum := by
    intro c
    induction c with
    | nil => intro acc; simp
    | cons e rest ih =>
        intro acc
        cases hf : products.find? (fun p => p.id = e.1) with
        | some prod =>
            simp only [List.foldl_cons, hf, List.filter_cons, hf, Option.isSome_some,
              if_pos, List.map_cons, List.sum_cons]
            rw [ih]
            simp [priceOf, hf, add_assoc]
        | none =>
            simp only [List.foldl_cons, hf, List.filter_cons, hf, Option.isSome_none]
            rw [ih]
            simp
  simpa [calculateOrderTotal] using h cart 0

/-- C4: a payment-initiation request whose cart computes to total 0 (with
the gateway configured and both fields present) is rejected with the
empty-cart error before any order is stored, any signature is computed, or
the gateway is contacted. -/
theorem createPayment_zero_cart (cfg : PayConfig) (store : Store) (cart : Cart)
    (m now oid : String) (gw : Option String)
    (hm : m ≠ "") (hshop : cfg.shop_id ≠ 0) (hpw : cfg.bilee_password ≠ "")
    (hzero : calculateOrderTotal store.products cart = 0) :
    createPayment cfg store (some cart) (some m) now oid gw
      = ⟨store, .emptyCart, false, false⟩ := by
  simp [createPayment, hm, hshop, hpw, hzero]

/-- Witness for C4 at a concrete input: a cart holding only an unknown
product id computes to 0 and is rejected without reaching the gateway. -/
theorem createPayment_zero_cart_witness :
    calculateOrderTotal (Store.mk [⟨"c30", "30", 200, "i", false⟩] []).products
        [("nope", 1)] = 0 ∧
    createPayment ⟨1, "pw", 10000, "f", "s"⟩
        (Store.mk [⟨"c30", "30", 200, "i", false⟩] []) (some [("nope", 1)])
        (some "card") "T0" "duck_1" none
      = ⟨Store.mk [⟨"c30", "30", 200, "i", false⟩] [], .emptyCart, false, false⟩ :=
  ⟨by decide,
   createPayment_zero_cart ⟨1, "pw", 10000, "f", "s"⟩
     (Store.mk [⟨"c30", "30", 200, "i", false⟩] []) [("nope", 1)]
     "card" "T0" "duck_1" none (by decide) (by decide) (by decide) (by decide)⟩

/-- C5: a submit-code request for an order with a stored email, carrying a
different email, is rejected as the email-mismatch error and the store —
hence the order's `code`, `status`, `amount` and `updated_at` — is left
completely unchanged. -/
theorem submitCode_email_mismatch (store : Store) (oid em cd now : String)
    (o : Order) (e : String)
    (hoid : oid ≠ "") (hem : em ≠ "") (hcd : cd ≠ "")
    (hfind : store.orders.find? (fun o => o.id = oid) = some o)
    (hstored : o.email = some e) (hne : e ≠ em) :
    submitCode store (some oid) (some em) (some cd) now = (store, .emailMismatch) := by
  have hmis : o.email ≠ some em := by
    rw [hstored]
    intro hc
    exact hne (Option.some.injEq e em ▸ hc)
  simp only [submitCode]
  rw [if_neg (by simp [hoid, hem, hcd]), hfind]
  simp [hmis]

/-- The concrete order and store used by the C5 witness. -/
def wOrder5 : Order :=
  { id := "o1", email := some "a@b.c", status := "pending_email",
    created_at := "T0", updated_at := "T0" }

def wStore5 : Store := Store.mk [] [wOrder5]

/-- Witness for C5 at a concrete input: submitting a code with a different
email leaves the store untouched. -/
theorem submitCode_email_mismatch_witness :
    submitCode wStore5 (some "o1") (some "x@y.z") (some "123456") "T1"
      = (wStore5, .emailMismatch) :=
  submitCode_email_mismatch wStore5 "o1" "x@y.z" "123456" "T1" wOrder5 "a@b.c"
    (by decide) (by decide) (by decide) (by decide) (by decide) (by decide)

/-- C8: the secure submit-email handler applies the `pending_email`
transition only under its guard: a syntactically invalid email, or a
recomputed amount above the configured cart ceiling, is rejected without
changing the store. -/
theorem submitEmailSecure_guard (maxCT : Int) (store : Store) (oid em : String)
    (c : Cart) (now ip : String) (hoid : oid ≠ "") (hem : em ≠ "")
    (hguard : emailValid em = false ∨ calculateOrderTotal store.products c > maxCT) :
    (submitEmailSecure maxCT store (some oid) (some em) (some c) now ip).1 = store ∧
    ((submitEmailSecure maxCT store (some oid) (some em) (some c) now ip).2 = .invalidEmail ∨
     (submitEmailSecure maxCT store (some oid) (some em) (some c) now ip).2 = .cartLimitExceeded) := by
  simp only [submitEmailSecure]
  rw [if_neg (by simp [hoid, hem])]
  by_cases hv : emailValid em
  · have hover : calculateOrderTotal store.products c > maxCT := by
      rcases hguard with hinv | hover
      · rw [hv] at hinv
        cases hinv
      · exact hover
    rw [if_neg (by simp [hv]), if_pos hover]
    exact ⟨rfl, Or.inr rfl⟩
  · rw [if_pos (by simp [Bool.eq_false_iff.mpr hv])]
    exact ⟨rfl, Or.inl rfl⟩

/-- Witness for C8 at a concrete input: the email `"bad"` fails the email
regex and the request is rejected with the store unchanged. -/
theorem submitEmailSecure_guard_witness :
    (submitEmailSecure 10000 (Store.mk [] []) (some "o1") (some "bad")
        (some []) "T0" "ip").1 = Store.mk [] [] ∧
    ((submitEmailSecure 10000 (Store.mk [] []) (some "o1") (some "bad")
        (some []) "T0" "ip").2 = .invalidEmail ∨
     (submitEmailSecure 10000 (Store.mk [] []) (some "o1") (some "bad")
        (some []) "T0" "ip").2 = .cartLimitExceeded) :=
  submitEmailSecure_guard 10000 (Store.mk [] []) "o1" "bad" [] "T0" "ip"
    (by decide) (by decide) (Or.inl (by decide))

/-- C10: in the revisions with a fallback, an unset `API_SECRET`
environment variable resolves to the literal `"duck_shop_secret_2024"`,
the shared admin check accepts exactly that constant, and the admin
order-status-update handler then never answers Unauthorized to a caller
supplying it (the same `secret !== API_SECRET` check guards product
add/delete, the admin product and order listings, export and cleanup). -/
theorem apiSecret_fallback :
    resolveApiSecret none = "duck_shop_secret_2024" ∧
    p1AdminAuthorized (some "duck_shop_secret_2024") none = true ∧
    (∀ (store : Store) (order_id status admin_comment : Option String) (now : String),
      (orderStatusUpdateP1 none store (some "duck_shop_secret_2024")
          order_id status admin_comment now).2 ≠ .unauthorized) := by
  refine ⟨rfl, by decide, ?_⟩
  intro store order_id status admin_comment now
  simp only [orderStatusUpdateP1]
  rw [show p1AdminAuthorized (some "duck_shop_secret_2024") none = true from by decide]
  simp only [Bool.not_true, Bool.false_eq_true, if_false]
  cases order_id with
  | none => simp
  | some oid =>
      cases status with
      | none => simp
      | some st =>
          dsimp only
          by_cases h1 : oid = "" ∨ st = ""
          · simp [h1]
          · rw [if_neg h1]
            cases hf : store.orders.find? (fun o => o.id = oid) <;> simp [hf]

/-- What one successful-or-not submit-email call does, in the shape the
idempotency argument needs: the response carries the amount recomputed
from the current catalog, the catalog itself is untouched, afterwards an
order with the submitted id exists, and when one already existed the order
count is unchanged. -/
theorem submitEmail_spec (s : Store) (oid em : String) (c : Cart) (t : String)
    (hoid : oid ≠ "") (hem : em ≠ "") :
    (submitEmail s (some oid) (some em) (some c) t).2
        = .ok oid em (calculateOrderTotal s.products c) ∧
    (submitEmail s (some oid) (some em) (some c) t).1.products = s.products ∧
    ((submitEmail s (some oid) (some em) (some c) t).1.orders.find?
        (fun o => o.id = oid)).isSome = true ∧
    ((s.orders.find? (fun o => o.id = oid)).isSome = true →
      (submitEmail s (some oid) (some em) (some c) t).1.orders.length
        = s.orders.length) := by
  simp only [submitEmail]
  rw [if_neg (by simp [hoid, hem])]
  cases hf : s.orders.find? (fun o => o.id = oid) with
  | none =>
      refine ⟨rfl, rfl, ?_, ?_⟩
      · rw [List.find?_append, hf]
        simp [List.find?_cons]
      · intro hs
        simp at hs
  | some o =>
      have hp1 := List.find?_some hf
      have hpo : o.id = oid := of_decide_eq_true hp1
      refine ⟨rfl, rfl, ?_, ?_⟩
      · rw [find?_updateFirst hf (by simp [hpo])]
        rfl
      · intro _
        simp [length_updateFirst]

/-- C9: submitting the same email with the same cart twice for the same
order id is idempotent — the second call returns the same response (in
particular the same amount, the catalog being unchanged) and does not
create a second order: the order count after the second call equals the
count after the first. -/
theorem submitEmail_idempotent (s0 : Store) (oid em : String) (c : Cart)
    (t1 t2 : String) (hoid : oid ≠ "") (hem : em ≠ "") :
    (submitEmail (submitEmail s0 (some oid) (some em) (some c) t1).1
        (some oid) (some em) (some c) t2).2
      = (submitEmail s0 (some oid) (some em) (some c) t1).2 ∧
    (submitEmail (submitEmail s0 (some oid) (some em) (some c) t1).1
        (some oid) (some em) (some c) t2).1.orders.length
      = (submitEmail s0 (some oid) (some em) (some c) t1).1.orders.length := by
  obtain ⟨hr1, hp1, hfind1, _⟩ := submitEmail_spec s0 oid em c t1 hoid hem
  obtain ⟨hr2, hp2, _, hlen2⟩ :=
    submitEmail_spec (submitEmail s0 (some oid) (some em) (some c) t1).1
      oid em c t2 hoid hem
  exact ⟨by rw [hr2, hr1, hp1], hlen2 hfind1⟩

/-- Witness for C9 at a concrete input: two identical submissions against
one catalog produce identical responses and one order. -/
theorem submitEmail_idempotent_witness :
    (submitEmail (submitEmail (Store.mk [⟨"c30", "30", 200, "i", false⟩] [])
        (some "o1") (some "a@b.c") (some [("c30", 2)]) "T1").1
        (some "o1") (some "a@b.c") (some [("c30", 2)]) "T2").2
      = (submitEmail (Store.mk [⟨"c30", "30", 200, "i", false⟩] [])
        (some "o1") (some "a@b.c") (some [("c30", 2)]) "T1").2 ∧
    (submitEmail (submitEmail (Store.mk [⟨"c30", "30", 200, "i", false⟩] [])
        (some "o1") (some "a@b.c") (some [("c30", 2)]) "T1").1
        (some "o1") (some "a@b.c") (some [("c30", 2)]) "T2").1.orders.length
      = (submitEmail (Store.mk [⟨"c30", "30", 200, "i", false⟩] [])
        (some "o1") (some "a@b.c") (some [("c30", 2)]) "T1").1.orders.length :=
  submitEmail_idempotent (Store.mk [⟨"c30", "30", 200, "i", false⟩] [])
    "o1" "a@b.c" [("c30", 2)] "T1" "T2" (by decide) (by decide)

/-- A successful, authorized admin status update on an existing order. -/
theorem orderStatusUpdate_found (apiSecret : String) (store : Store)
    (oid st : String) (ac : Option String) (now : String) (o : Order)
    (hsec : apiSecret ≠ "") (hoid : oid ≠ "") (hst : st ≠ "")
    (hfind : store.orders.find? (fun o => o.id = oid) = some o) :
    orderStatusUpdate apiSecret store (some apiSecret) (some oid) (some st) ac now
      = ({ store with orders := updateFirst (fun o => o.id = oid) (applyStatusUpdate st ac now) store.orders }, .ok oid st) := by
  simp only [orderStatusUpdate]
  rw [if_neg (by simp [hsec])]
  rw [if_neg (by simp [hoid, hst]), hfind]

/-- A webhook naming an existing order applies `applyWebhook` to it. -/
theorem bileeNotify_found (store : Store) (oid : String) (st : Option String)
    (amt : Option Int) (sig : Option String) (now : String) (o : Order)
    (hoid : oid ≠ "")
    (hfind : store.orders.find? (fun o => o.id = oid) = some o) :
    bileeNotify store ⟨some oid, st, amt, sig⟩ now
      = ({ store with orders := updateFirst (fun o => o.id = oid) (applyWebhook st now) store.orders }, .ok) := by
  simp only [bileeNotify]
  rw [if_neg hoid, hfind]

def cxOrder7 : Order :=
  { id := "o1", status := "completed", completed_at := some "T1",
    created_at := "T0", updated_at := "T0" }

def cxStore7 : Store := Store.mk [] [cxOrder7]

/-- C7 counterexample: an order already in `completed` with
`completed_at = "T1"` has its `completed_at` overwritten to the current
time by a repeated admin `completed` update, so the timestamp is not "set
exactly once, on first entry". -/
theorem completedAt_restamped_counterexample :
    cxOrder7.completed_at = some "T1" ∧
    ((orderStatusUpdate "sec" cxStore7 (some "sec") (some "o1") (some "completed")
        none "T2").1.orders.map Order.completed_at) = [some "T2"] := by decide

/-- C7 amended: `completed_at` / `rejected_at` are set to the current time
on every authorized admin update to that status, and `paid_at` is set to
the current time on every payment-success webhook, in each case
overwriting any previously stored value rather than being set exactly
once. -/
theorem timestamps_restamped (apiSecret : String) (store : Store) (oid : String)
    (ac : Option String) (now : String) (o : Order)
    (hsec : apiSecret ≠ "") (hoid : oid ≠ "")
    (hfind : store.orders.find? (fun o => o.id = oid) = some o) :
    ((orderStatusUpdate apiSecret store (some apiSecret) (some oid)
          (some "completed") ac now).1.orders.find? (fun o => o.id = oid)
        = some (applyStatusUpdate "completed" ac now o) ∧
      (applyStatusUpdate "completed" ac now o).completed_at = some now) ∧
    ((orderStatusUpdate apiSecret store (some apiSecret) (some oid)
          (some "rejected") ac now).1.orders.find? (fun o => o.id = oid)
        = some (applyStatusUpdate "rejected" ac now o) ∧
      (applyStatusUpdate "rejected" ac now o).rejected_at = some now) ∧
    (∀ (amt : Option Int) (sig : Option String),
      (bileeNotify store ⟨some oid, some "success", amt, sig⟩ now).1.orders.find?
          (fun o => o.id = oid) = some (applyWebhook (some "success") now o) ∧
      (applyWebhook (some "success") now o).paid_at = some now) := by
  have hp1 := List.find?_some hfind
  have hpo : o.id = oid := of_decide_eq_true hp1
  refine ⟨⟨?_, applyStatusUpdate_completed_at ac now o⟩,
    ⟨?_, applyStatusUpdate_rejected_at ac now o⟩, ?_⟩
  · rw [orderStatusUpdate_found apiSecret store oid "completed" ac now o hsec hoid
      (by decide) hfind]
    exact find?_updateFirst hfind (by simp [applyStatusUpdate_id, hpo])
  · rw [orderStatusUpdate_found apiSecret store oid "rejected" ac now o hsec hoid
      (by decide) hfind]
    exact find?_updateFirst hfind (by simp [applyStatusUpdate_id, hpo])
  · intro amt sig
    rw [bileeNotify_found store oid (some "success") amt sig now o hoid hfind]
    exact ⟨find?_updateFirst hfind (by simp [applyWebhook_id, hpo]),
      applyWebhook_paid_at now o⟩

/-- Witness for the amended C7 at a concrete input: the already-stamped
order of the counterexample is restamped to the new time on each path. -/
theorem timestamps_restamped_witness :
    ((orderStatusUpdate "sec" cxStore7 (some "sec") (some "o1")
          (some "completed") none "T2").1.orders.find? (fun o => o.id = "o1")
        = some (applyStatusUpdate "completed" none "T2" cxOrder7) ∧
      (applyStatusUpdate "completed" none "T2" cxOrder7).completed_at = some "T2") ∧
    ((orderStatusUpdate "sec" cxStore7 (some "sec") (some "o1")
          (some "rejected") none "T2").1.orders.find? (fun o => o.id = "o1")
        = some (applyStatusUpdate "rejected" none "T2" cxOrder7) ∧
      (applyStatusUpdate "rejected" none "T2" cxOrder7).rejected_at = some "T2") ∧
    (∀ (amt : Option Int) (sig : Option String),
      (bileeNotify cxStore7 ⟨some "o1", some "success", amt, sig⟩ "T2").1.orders.find?
          (fun o => o.id = "o1") = some (applyWebhook (some "success") "T2" cxOrder7) ∧
      (applyWebhook (some "success") "T2" cxOrder7).paid_at = some "T2") :=
  timestamps_restamped "sec" cxStore7 "o1" none "T2" cxOrder7
    (by decide) (by decide) (by decide)

def cxOrigPayload : Payload :=
  [("order_id", .str "o1"), ("amount", .num 100), ("status", .str "success")]

def cxTamperedPayload : Payload :=
  [("order_id", .str "o1"), ("amount", .num 999), ("status", .str "success")]

/-- The signature the gateway would have attached to the original payload. -/
def cxSig : String := generateSignature cxOrigPayload "s"

def cxOrder2 : Order :=
  { id := "o1", amount := 100, status := "created",
    created_at := "T0", updated_at := "T0" }

def cxStore2 : Store := Store.mk [] [cxOrder2]

/-- The tampered webhook body: amount changed from 100 to 999, signature
left as signed over the original amount. -/
def cxBody2 : WebhookBody :=
  { order_id := some "o1", status := some "success", amount := some 999,
    signature := some cxSig }

/-- C2 counterexample: a webhook with a tampered `amount` and the original
(now non-verifying) signature is not rejected — the handler answers 200
and mutates the order anyway. -/
theorem webhook_accepts_tampered_counterexample :
    generateSignature cxTamperedPayload "s" ≠ cxSig ∧
    (bileeNotify cxStore2 cxBody2 "T1").2 = .ok ∧
    (bileeNotify cxStore2 cxBody2 "T1").1 ≠ cxStore2 := by decide

/-- C2 amended: the webhook handler performs no signature verification at
all — it always answers 200, its result is entirely independent of the
`signature` field, and any webhook naming an existing order overwrites
that order's payment status regardless of its signature. -/
theorem bileeNotify_no_signature_check :
    (∀ (store : Store) (body : WebhookBody) (now : String),
      (bileeNotify store body now).2 = .ok) ∧
    (∀ (store : Store) (body : WebhookBody) (now : String) (sig : Option String),
      bileeNotify store { body with signature := sig } now
        = bileeNotify store body now) ∧
    (∀ (store : Store) (oid now : String) (st : Option String) (amt : Option Int)
        (sig : Option String) (o : Order),
      oid ≠ "" →
      store.orders.find? (fun o => o.id = oid) = some o →
      (bileeNotify store ⟨some oid, st, amt, sig⟩ now).1.orders.find?
          (fun o => o.id = oid) = some (applyWebhook st now o)) := by
  refine ⟨?_, ?_, ?_⟩
  · intro store body now
    cases bileeNotify store body now with
    | mk s r => cases r; rfl
  · intro store body now sig
    rfl
  · intro store oid now st amt sig o hoid hfind
    rw [bileeNotify_found store oid st amt sig now o hoid hfind]
    have hp1 := List.find?_some hfind
    have hpo : o.id = oid := of_decide_eq_true hp1
    exact find?_updateFirst hfind (by simp [applyWebhook_id, hpo])

/-- Witness for the amended C2 at a concrete input: an arbitrary-signature
webhook for an existing order overwrites its payment status. -/
theorem bileeNotify_no_signature_check_witness :
    (bileeNotify cxStore2 ⟨some "o1", some "failed", none, some "whatever"⟩
        "T1").1.orders.find? (fun o => o.id = "o1")
      = some (applyWebhook (some "failed") "T1" cxOrder2) :=
  bileeNotify_no_signature_check.2.2 cxStore2 "o1" "T1" (some "failed") none
    (some "whatever") cxOrder2 (by decide) (by decide)

/-- C3 counterexample: changing the value of the single field `metadata`
(excluded from the digest) does not flip `verify` to false — the original
signature still verifies over the modified payload. -/
theorem verify_metadata_change_counterexample :
    verifySig [("amount", Val.num 100), ("metadata", Val.str "b")]
      (generateSignature [("amount", Val.num 100), ("metadata", Val.str "a")] "s")
      "s" = true := by decide

/-- C3 amended: the round-trip holds for every payload and secret; but
sensitivity to change holds only outside the excluded fields: changing
`signature`, `metadata` or `password` never changes the digest, while
changing the value of any other single-occurrence field to one with a
different string coercion, or changing the secret, changes the canonical
signed string (and therefore the digest except for a SHA-256 collision). -/
theorem verify_roundtrip_and_sensitivity :
    (∀ (payload : Payload) (secret : String),
        verifySig payload (generateSignature payload secret) secret = true) ∧
    (∀ (q1 q2 : Payload) (k : String) (a b : Val) (secret : String),
        k = "signature" ∨ k = "metadata" ∨ k = "password" →
        generateSignature (q1 ++ (k, a) :: q2) secret
          = generateSignature (q1 ++ (k, b) :: q2) secret) ∧
    (∀ (q1 q2 : Payload) (k : String) (a b : Val) (secret : String),
        k ∉ keysOf q1 → k ∉ keysOf q2 →
        k ≠ "signature" → k ≠ "metadata" → k ≠ "password" →
        valToString a ≠ valToString b →
        signedString (q1 ++ (k, a) :: q2) secret
          ≠ signedString (q1 ++ (k, b) :: q2) secret) ∧
    (∀ (payload : Payload) (s1 s2 : String),
        (keysOf payload).Nodup → s1 ≠ s2 →
        signedString payload s1 ≠ signedString payload s2) := by
  refine ⟨?_, generateSignature_excluded_field_irrelevant,
    signedString_ne_of_value_change, signedString_ne_of_secret_change⟩
  intro payload secret
  simp only [verifySig]
  rw [generateSignature_removeSignature]
  simp

/-- Witness for the amended C3 at a concrete input: changing `amount` from
100 to 999 changes the signed string. -/
theorem verify_sensitivity_witness :
    signedString [("amount", Val.num 100)] "s"
      ≠ signedString [("amount", Val.num 999)] "s" :=
  verify_roundtrip_and_sensitivity.2.2.1 [] [] "amount"
    (Val.num 100) (Val.num 999) "s"
    (by decide) (by decide) (by decide) (by decide) (by decide) (by decide)

/-- C1: signing `{order_id: "x", amount: 100}` with secret `"s"` yields
the lowercase SHA-256 hex digest of the UTF-8 string `"100xs"`; and in
general `sign` is SHA-256 hex of the spec's canonical string — merge
`{password: secret}`, drop `signature` and `metadata`, sort the remaining
keys, and concatenate the coerced values with no separators. -/
theorem sign_canonicalization :
    generateSignature [("order_id", Val.str "x"), ("amount", Val.num 100)] "s"
        = sha256HexOfString "100xs" ∧
    ∀ (payload : Payload) (secret : String),
      generateSignature payload secret
        = sha256HexOfString (specCanonical payload secret) :=
  ⟨by decide, generateSignature_eq_spec⟩

end Duck
